import Mathlib

/-!
Shallow embedding of `src/qtoggleserver/frontend/js/api/notifications.js`
(the qToggle frontend notifications subsystem): the Event value object,
the expected-event registry, listener dispatch, and the long-poll
response handlers (`wait`'s `.then` / `.catch` closures).

Modelling conventions:
* JS objects used as parameter maps become insertion-ordered association
  lists `List (String × JsVal)`; property lookup is `List.lookup`
  (absent key = JS `undefined`).
* The `expectedEventSpecs` object is keyed by numeric handles that are
  assigned by a strictly increasing counter; JS iterates integer-like
  keys in ascending numeric order, so insertion order equals iteration
  order and the registry is modelled as a `List (Nat × EventSpec)` in
  that order.  `delete obj[h]` is `deleteKey`.
* Handler and listener callbacks are opaque closures; they are modelled
  by numeric identities, and their invocations are recorded in an
  observable trace (`Action`).  The scheduling of a sync-listen callback
  via `PromiseUtils.asap().then(c)` is likewise recorded as a trace
  action.
* `ObjectUtils.copy` (value copy at `Event` construction) and
  `event.clone()` produce value-equal copies; in a pure model a value is
  its own independent copy.
* Numbers appearing in params are modelled as `Int` (no floating point
  values occur in event parameters relevant here), so JS `!==` on them
  coincides with decidable equality.
-/

namespace Notif

/-- A primitive JS value stored in an event's `params` map. -/
inductive JsVal where
  | str (s : String)
  | num (n : Int)
  | bool (b : Bool)
  | null
deriving DecidableEq, Repr

/-- A JS object used as a parameter map: insertion-ordered association list. -/
abbrev Params := List (String × JsVal)

/-- `class Event` (notifications.js lines 36-60): `type`, `params`
(copied at construction), `expected`, `fake`. -/
structure Event where
  type : String
  params : Params
  expected : Bool
  fake : Bool
deriving DecidableEq, Repr

/-- `new Event(type, params)` with the default flags
(`expected = false`, `fake = false`).  `ObjectUtils.copy(params)` is the
identity on pure values. -/
def Event.mkNew (type : String) (params : Params) : Event :=
  ⟨type, params, false, false⟩

/-- `event.clone()`: a value-equal independent copy. -/
def Event.clone (e : Event) : Event :=
  ⟨e.type, e.params, e.expected, e.fake⟩

/-- One entry of `expectedEventSpecs` (created by `expectEvent`):
`type` (`none` models a falsy type, i.e. no type filter), `params`
(`none` models `null`, i.e. no params filter), `added` timestamp,
`timeout`, and the ordered list of attached handler identities. -/
structure EventSpec where
  type : Option String
  params : Option Params
  added : Nat
  timeout : Nat
  handlers : List Nat
deriving DecidableEq, Repr

/-- One entry of `eventListeners` (created by `addEventListener`):
callback identity, `thisArg`, and the extra registration arguments.
The source stores the whole `arguments` object as `args`; since
`arguments` is not concat-spreadable, `[event.clone()].concat(args)`
appends it as a single element, so at dispatch time the callback is
applied to `[clone, argumentsObject]` where the arguments object is
exactly this record's data. -/
structure Listener where
  cb : Nat
  thisArg : Option JsVal
  extraArgs : List JsVal
deriving DecidableEq, Repr

/-- The module-level mutable state of notifications.js (lines 62-75).
`syncListenError` stores the identity of the recorded error (`none` =
JS `null`). -/
structure NotifState where
  eventListeners : List Listener
  expectedEventSpecs : List (Nat × EventSpec)
  expectedEventLastHandle : Nat
  listeningTime : Option Nat
  listenErrorCount : Nat
  ignoreListenErrors : Bool
  syncListenError : Option Nat
  syncListenCallbacks : List Nat
deriving DecidableEq, Repr

/-- `DEFAULT_EXPECT_TIMEOUT = 60000` (milliseconds). -/
def DEFAULT_EXPECT_TIMEOUT : Nat := 60000

/-- `FAST_RECONNECT_LISTEN_ERRORS = 2`. -/
def FAST_RECONNECT_LISTEN_ERRORS : Nat := 2

/-- One recorded dispatch of an expected-event handler:
`ev e` models `h(event)`, `cancelled` models
`h(null, new Error('Event no longer expected'))`, and `timedOut` models
`h(null, new Error('Timeout waiting for expected event'))` — the two
failure kinds are distinct by construction. -/
inductive HandlerArg where
  | ev (e : Event)
  | cancelled
  | timedOut
deriving DecidableEq, Repr

/-- One invocation of a registered listener: the callback is applied to
the cloned event and (as a single extra argument) the registration-time
arguments object, both captured here. -/
structure Invocation where
  listener : Listener
  eventArg : Event
deriving DecidableEq, Repr

/-- An observable callback dispatch.  `handlerCall` records which
registry entry's handler fired and with what argument; `listenerCall`
records a listener invocation; `syncCall` records the (deferred)
invocation of a sync-listen callback, with `none` on success and
`some (errorId, reconnectSeconds)` on failure. -/
inductive Action where
  | handlerCall (handle : Nat) (handlerId : Nat) (arg : HandlerArg)
  | listenerCall (inv : Invocation)
  | syncCall (cbId : Nat) (failure : Option (Nat × Nat))
deriving DecidableEq, Repr

/-- Whether an action is an expected-event handler invocation. -/
def Action.isHandlerCall : Action → Bool
  | .handlerCall _ _ _ => true
  | _ => false

/-- Whether an action is a handler invocation of the given registry handle. -/
def Action.onHandle (h : Nat) : Action → Bool
  | .handlerCall h2 _ _ => h2 == h
  | _ => false

/-- Whether an action is a listener invocation whose delivered event
carries `expected = true`. -/
def Action.listenerExpected : Action → Bool
  | .listenerCall inv => inv.eventArg.expected
  | _ => false

/-- `delete expectedEventSpecs[h]`: remove the entry keyed `h`,
preserving the order of all other entries. -/
def deleteKey (h : Nat) (specs : List (Nat × EventSpec)) : List (Nat × EventSpec) :=
  specs.filter (fun q => q.1 != h)

/-- The type filter of `lookupExpectedEventHandle` (line 151):
`eventSpec.type && eventSpec.type !== type` rejects the entry; a falsy
entry type accepts every candidate type. -/
def typeAccepts (sp : EventSpec) (t : String) : Bool :=
  match sp.type with
  | none => true
  | some st => st == t

/-- The params filter of `lookupExpectedEventHandle` (lines 155-165):
`mismatched` collects the spec's keys whose value is not strictly equal
to the candidate's value at that key (`params[key] !== value`; an
absent candidate key reads as `undefined` and mismatches); the entry is
rejected iff `mismatched` is non-empty. -/
def paramsMismatch (spp : Params) (ps : Params) : Bool :=
  spp.any (fun kv => ps.lookup kv.1 != some kv.2)

/-- The complete per-entry match predicate of
`lookupExpectedEventHandle` for a concrete (non-null) candidate:
the entry's type (when set) equals the candidate's type and every key
of the entry's params (when set) has an identical value in the
candidate's params. -/
def specMatches (sp : EventSpec) (t : String) (ps : Params) : Bool :=
  typeAccepts sp t &&
    (match sp.params with
     | none => true
     | some spp => !paramsMismatch spp ps)

/-- Result of `lookupExpectedEventHandle`: the first matching handle,
no match, or a synchronously thrown `TypeError`.  The `threw` case
arises only for a `null` candidate params: the filter callback then
evaluates `params[key]` on `null` as soon as the inspected entry's
params map has at least one key. -/
inductive LookupOutcome where
  | found (handle : Nat)
  | notFound
  | threw
deriving DecidableEq, Repr

/-- `lookupExpectedEventHandle({type, params})` (lines 149-169):
iterate registry entries in order (`ObjectUtils.findKey`) and return
the first entry passing the type filter and the params filter. -/
def lookupExpectedEventHandle (t : String) (p : Option Params) :
    List (Nat × EventSpec) → LookupOutcome
  | [] => .notFound
  | (h, sp) :: rest =>
    if typeAccepts sp t then
      match sp.params with
      | none => .found h
      | some spp =>
        match p with
        | none => if spp.isEmpty then .found h else .threw
        | some ps =>
          if paramsMismatch spp ps then lookupExpectedEventHandle t p rest
          else .found h
    else lookupExpectedEventHandle t p rest

/-- Result of `tryMatchExpectedEvent`: the matched handle together with
that entry's handler identities (when a match was found), and the
registry after the matched entry's removal. -/
structure MatchOut where
  matched : Option (Nat × List Nat)
  specs : List (Nat × EventSpec)
deriving DecidableEq, Repr

/-- `tryMatchExpectedEvent(event)` (lines 171-182): look up the first
matching entry for `(event.type, event.params)` (the candidate params
of a constructed `Event` are never `null`); on a match, its handlers
are invoked with the event and the entry is deleted.  The two final
fallbacks are unreachable: a `found` handle is a key of the registry,
and a non-null candidate never makes the lookup throw. -/
def tryMatchExpectedEvent (e : Event) (specs : List (Nat × EventSpec)) : MatchOut :=
  match lookupExpectedEventHandle e.type (some e.params) specs with
  | .found h =>
    match specs.lookup h with
    | some sp => ⟨some (h, sp.handlers), deleteKey h specs⟩
    | none => ⟨some (h, []), deleteKey h specs⟩
  | .notFound => ⟨none, specs⟩
  | .threw => ⟨none, specs⟩

/-- Result of dispatching one event (or one batch) into the subsystem:
the new state, the trace of callback dispatches in order, and whether
an exception escaped (a listener threw). -/
structure StepOut where
  state : NotifState
  acts : List Action
  thrown : Bool
deriving DecidableEq, Repr

/-- `callEventListeners(event)` (lines 250-254): `forEach` over the
listener registry in registration order, applying each callback to
`[event.clone(), argumentsObject]`.  `throws` gives each callback's
behaviour; a throwing callback's invocation still happens, but the
exception propagates out of the `forEach`, so no later listener runs. -/
def callEventListeners (throws : Nat → Bool) (e : Event) :
    List Listener → List Invocation × Bool
  | [] => ([], false)
  | l :: ls =>
    if throws l.cb then ([⟨l, e⟩], true)
    else
      let r := callEventListeners throws e ls
      (⟨l, e⟩ :: r.1, r.2)

/-- One `{type, params}` record of a `GET /listen` response; `none`
params models an absent or `null` field. -/
structure EventData where
  type : String
  params : Option Params
deriving DecidableEq, Repr

/-- `handleServerEvent(eventData)` (lines 204-221): construct
`new Event(eventData.type, eventData.params || {})`, try to match a
pending expectation (invoking its handlers), set `expected = true` on a
match, then dispatch to listeners.  The matched entry's handlers
receive the event object by reference and only read it in a deferred
continuation, after `event.expected = true` has been assigned, so the
recorded handler argument is the event with its final flags. -/
def handleServerEvent (throws : Nat → Bool) (s : NotifState) (d : EventData) : StepOut :=
  let event := Event.mkNew d.type (d.params.getD [])
  let m := tryMatchExpectedEvent event s.expectedEventSpecs
  match m.matched with
  | some (h, hids) =>
    let ev2 : Event := ⟨event.type, event.params, true, false⟩
    let lr := callEventListeners throws ev2 s.eventListeners
    ⟨{ s with expectedEventSpecs := m.specs },
     hids.map (fun hid => Action.handlerCall h hid (.ev ev2)) ++ lr.1.map Action.listenerCall,
     lr.2⟩
  | none =>
    let lr := callEventListeners throws event s.eventListeners
    ⟨s, lr.1.map Action.listenerCall, lr.2⟩

/-- `fakeServerEvent(type, params)` (lines 229-248): same matching and
dispatch path as `handleServerEvent`, except the event is built
directly from the arguments and `event.fake = true` is assigned after
the match attempt (and before listener dispatch); the matched handlers
hold the same object reference and observe the final flags in their
deferred continuations. -/
def fakeServerEvent (throws : Nat → Bool) (s : NotifState) (t : String) (p : Params) : StepOut :=
  let event := Event.mkNew t p
  let m := tryMatchExpectedEvent event s.expectedEventSpecs
  match m.matched with
  | some (h, hids) =>
    let ev2 : Event := ⟨t, p, true, true⟩
    let lr := callEventListeners throws ev2 s.eventListeners
    ⟨{ s with expectedEventSpecs := m.specs },
     hids.map (fun hid => Action.handlerCall h hid (.ev ev2)) ++ lr.1.map Action.listenerCall,
     lr.2⟩
  | none =>
    let ev2 : Event := ⟨t, p, false, true⟩
    let lr := callEventListeners throws ev2 s.eventListeners
    ⟨s, lr.1.map Action.listenerCall, lr.2⟩

/-- `expectEvent(type, params, timeout)` (lines 86-101): allocate the
next handle and insert a fresh entry; a numeric key larger than every
existing key appends in iteration order. -/
def expectEvent (s : NotifState) (type : Option String) (params : Option Params)
    (timeout : Option Nat) (now : Nat) : Nat × NotifState :=
  let timeout := timeout.getD DEFAULT_EXPECT_TIMEOUT
  let handle := s.expectedEventLastHandle + 1
  (handle,
   { s with
     expectedEventLastHandle := handle
     expectedEventSpecs :=
       s.expectedEventSpecs ++ [(handle, ⟨type, params, now, timeout, []⟩)] })

/-- `unexpectEvent(handle)` (lines 108-115): if the entry is present,
invoke each of its handlers with the cancellation failure; then delete
the key (a no-op when absent). -/
def unexpectEvent (s : NotifState) (h : Nat) : NotifState × List Action :=
  let acts :=
    match s.expectedEventSpecs.lookup h with
    | some sp => sp.handlers.map (fun hid => Action.handlerCall h hid .cancelled)
    | none => []
  ({ s with expectedEventSpecs := deleteKey h s.expectedEventSpecs }, acts)

/-- Whether a registry entry is overdue at time `now`:
`now - eventSpec.added > eventSpec.timeout` (line 190). -/
def isExpired (now : Nat) (sp : EventSpec) : Bool :=
  decide (sp.timeout < now - sp.added)

/-- `cleanupExpectedEvents()` (lines 184-202): keep exactly the entries
that are not overdue (`ObjectUtils.filter`), collecting the overdue
entries in iteration order; then invoke each expired entry's handlers
with the timeout failure. -/
def cleanupExpectedEvents (now : Nat) (s : NotifState) : NotifState × List Action :=
  let expired := s.expectedEventSpecs.filter (fun q => isExpired now q.2)
  let kept := s.expectedEventSpecs.filter (fun q => !isExpired now q.2)
  ({ s with expectedEventSpecs := kept },
   expired.flatMap (fun q => q.2.handlers.map (fun hid => Action.handlerCall q.1 hid .timedOut)))

/-- Result of a `waitExpectedEvent` call: a rejected promise (`new
Error('No such expected event')`), a pending promise joined onto the
given handle, or a synchronously thrown `TypeError` escaping the call. -/
inductive WaitCallResult where
  | rejected
  | pending (handle : Nat)
  | threw
deriving DecidableEq, Repr

/-- Append a handler identity to the entry keyed `h`
(`eventSpec.handlers.push(...)`). -/
def pushHandler (h : Nat) (hid : Nat) (specs : List (Nat × EventSpec)) :
    List (Nat × EventSpec) :=
  specs.map (fun q =>
    if q.1 == h then (q.1, { q.2 with handlers := q.2.handlers ++ [hid] }) else q)

/-- `waitExpectedEvent(type, params = null)` (lines 123-147): look up an
already-registered expectation; reject when none is found; otherwise
push a continuation (the promise executor runs synchronously) onto the
first matching entry.  The returned promise settles when that entry's
handlers are invoked. -/
def waitExpectedEvent (s : NotifState) (t : String) (p : Option Params)
    (newHandlerId : Nat) : WaitCallResult × NotifState :=
  match lookupExpectedEventHandle t p s.expectedEventSpecs with
  | .threw => (.threw, s)
  | .notFound => (.rejected, s)
  | .found h =>
    (.pending h, { s with expectedEventSpecs := pushHandler h newHandlerId s.expectedEventSpecs })

/-- How the response handler scheduled the next `wait` cycle:
not at all (stale generation), `asap(wait)`, or
`setTimeout(wait, n * 1000)`. -/
inductive Schedule where
  | notScheduled
  | asap
  | afterSeconds (n : Nat)
deriving DecidableEq, Repr

/-- Result of one poll-response handler: new state, dispatch trace, and
how the next cycle was scheduled. -/
structure PollOut where
  state : NotifState
  acts : List Action
  sched : Schedule
deriving DecidableEq, Repr

/-- `result.forEach(handleServerEvent)` (line 291): process the batch
in server-supplied order; an exception thrown by a listener aborts the
`forEach` (the remaining events are not processed) and propagates to
the enclosing try-catch. -/
def processBatch (throws : Nat → Bool) (s : NotifState) : List EventData → StepOut
  | [] => ⟨s, [], false⟩
  | d :: ds =>
    let r := handleServerEvent throws s d
    if r.thrown then ⟨r.state, r.acts, true⟩
    else
      let r2 := processBatch throws r.state ds
      ⟨r2.state, r.acts ++ r2.acts, r2.thrown⟩

/-- The `.then` handler of `wait`'s API call (lines 274-299), for the
generation stamp `rqTime` captured at request time: discard a stale
generation's response entirely; otherwise schedule the next cycle
`asap`, clear the recorded error and the error counter, schedule every
sync-listen callback (deferred, inside the try block), and process the
event batch, catching any exception at batch level.  An empty batch is
a keep-alive. -/
def waitThen (throws : Nat → Bool) (rqTime : Option Nat) (s : NotifState)
    (result : List EventData) : PollOut :=
  if s.listeningTime ≠ rqTime then ⟨s, [], .notScheduled⟩
  else
    let s1 := { s with syncListenError := none, listenErrorCount := 0 }
    let syncActs := s1.syncListenCallbacks.map (fun c => Action.syncCall c none)
    let r := processBatch throws s1 result
    ⟨r.state, syncActs ++ r.acts, .asap⟩

/-- The `.catch` handler of `wait`'s API call (lines 301-329), for the
generation stamp `rqTime` and the steady-state retry interval
`retryInterval` (`APIConstants.SERVER_RETRY_INTERVAL`, imported from
constants.js and therefore a parameter here): discard a stale
generation's response entirely; with error suppression on, only
reschedule; otherwise record the error, increment the consecutive
failure counter, pick the 1-second fast-reconnect delay while the
counter is within `FAST_RECONNECT_LISTEN_ERRORS`, notify every
sync-listen callback with the error and that delay, and schedule the
next cycle after the same delay. -/
def waitCatch (rqTime : Option Nat) (retryInterval : Nat) (s : NotifState)
    (errId : Nat) : PollOut :=
  if s.listeningTime ≠ rqTime then ⟨s, [], .notScheduled⟩
  else if s.ignoreListenErrors then ⟨s, [], .afterSeconds retryInterval⟩
  else
    let s1 := { s with syncListenError := some errId, listenErrorCount := s.listenErrorCount + 1 }
    let reconnectSeconds :=
      if s1.listenErrorCount ≤ FAST_RECONNECT_LISTEN_ERRORS then 1 else retryInterval
    ⟨s1,
     s1.syncListenCallbacks.map (fun c => Action.syncCall c (some (errId, reconnectSeconds))),
     .afterSeconds reconnectSeconds⟩

/-- `stopListening()` (lines 418-422): clear the generation stamp. -/
def stopListening (s : NotifState) : NotifState :=
  { s with listeningTime := none }

/-- `startListening()` (lines 403-412): throw an `AssertionError` when
already listening, else stamp a new generation (the first poll is then
issued with a short timeout). -/
def startListening (s : NotifState) (now : Nat) : Except Unit NotifState :=
  if s.listeningTime.isSome then .error ()
  else .ok { s with listeningTime := some now }

/-- Set the `fake` flag on an event embedded in a recorded dispatch;
used to relate the fake-event path to the real-event path. -/
def Event.setFake (e : Event) : Event :=
  ⟨e.type, e.params, e.expected, true⟩

/-- Set the `fake` flag inside a handler argument. -/
def HandlerArg.setFake : HandlerArg → HandlerArg
  | .ev e => .ev e.setFake
  | a => a

/-- Set the `fake` flag on the event delivered by a recorded action. -/
def Action.setFake : Action → Action
  | .handlerCall h hid a => .handlerCall h hid a.setFake
  | .listenerCall inv => .listenerCall ⟨inv.listener, inv.eventArg.setFake⟩
  | a => a

/-! Concrete sample values, used to evaluate the theorems below on
closed inputs. -/

/-- A sample listener with callback identity 1. -/
def wListener1 : Listener := ⟨1, none, []⟩

/-- A sample listener with callback identity 2. -/
def wListener2 : Listener := ⟨2, none, []⟩

/-- Callback behaviour where no callback throws. -/
def wThrowsNone : Nat → Bool := fun _ => false

/-- Callback behaviour where exactly callback 1 throws. -/
def wThrowsFirst : Nat → Bool := fun c => c == 1

/-- A pending expectation for `port-update` events on port `p1`,
with two attached handlers. -/
def wSpecMatch : EventSpec :=
  ⟨some "port-update", some [("id", JsVal.str "p1")], 0, 5000, [10, 11]⟩

/-- A pending expectation for a different event type. -/
def wSpecOther : EventSpec := ⟨some "other", none, 0, 5000, [12]⟩

/-- A sample state with two listeners, two pending expectations and one
sync-listen callback. -/
def wStateTwo : NotifState :=
  ⟨[wListener1, wListener2], [(1, wSpecMatch), (2, wSpecOther)], 2, some 100, 0, false, none, [40]⟩

/-- A server event record matching `wSpecMatch` (extra key ignored). -/
def wEventData : EventData :=
  ⟨"port-update", some [("id", JsVal.str "p1"), ("value", JsVal.num 42)]⟩

/-- A state whose current generation stamp is `some 5`. -/
def wStale : NotifState := ⟨[], [], 0, some 5, 0, false, none, [40]⟩

/-- A registry state with one overdue entry (handle 1), one live entry
(handle 2) at time 200, and an absent handle 3. -/
def wExpiredState : NotifState :=
  ⟨[], [(1, ⟨some "x", none, 0, 100, [20]⟩), (2, ⟨some "y", none, 150, 100, [21]⟩)],
   2, none, 0, false, none, []⟩

/-- A pending expectation with a non-empty params filter. -/
def c7Spec : EventSpec := ⟨some "x", some [("a", JsVal.num 1)], 0, 60000, []⟩

/-- A state holding only `c7Spec`, registered under handle 1. -/
def c7State : NotifState := ⟨[], [(1, c7Spec)], 1, none, 0, false, none, []⟩

/-- A sample event dispatched to the listener registry. -/
def cexEvent : Event := ⟨"port-update", [], false, false⟩

/-! Helper lemmas. -/

/-- On a non-null candidate, `lookupExpectedEventHandle` returns
precisely the first registry entry satisfying `specMatches`. -/
theorem lookup_some_eq_find (t : String) (ps : Params) (specs : List (Nat × EventSpec)) :
    lookupExpectedEventHandle t (some ps) specs =
      (match specs.find? (fun q => specMatches q.2 t ps) with
       | some q => LookupOutcome.found q.1
       | none => LookupOutcome.notFound) := by
  induction specs with
  | nil => rfl
  | cons q rest ih =>
    obtain ⟨h, sp⟩ := q
    cases hta : typeAccepts sp t with
    | false =>
      have hm : specMatches sp t ps = false := by simp [specMatches, hta]
      rw [List.find?_cons_of_neg _ (by simp [hm])]
      simpa [lookupExpectedEventHandle, hta] using ih
    | true =>
      cases hpp : sp.params with
      | none =>
        have hm : specMatches sp t ps = true := by simp [specMatches, hta, hpp]
        rw [List.find?_cons_of_pos _ (by simp [hm])]
        simp [lookupExpectedEventHandle, hta, hpp]
      | some spp =>
        cases hmm : paramsMismatch spp ps with
        | true =>
          have hm : specMatches sp t ps = false := by simp [specMatches, hta, hpp, hmm]
          rw [List.find?_cons_of_neg _ (by simp [hm])]
          simpa [lookupExpectedEventHandle, hta, hpp, hmm] using ih
        | false =>
          have hm : specMatches sp t ps = true := by simp [specMatches, hta, hpp, hmm]
          rw [List.find?_cons_of_pos _ (by simp [hm])]
          simp [lookupExpectedEventHandle, hta, hpp, hmm]

/-- A lookup on a non-null candidate never throws. -/
theorem lookup_some_ne_threw (t : String) (ps : Params) (specs : List (Nat × EventSpec)) :
    lookupExpectedEventHandle t (some ps) specs ≠ .threw := by
  rw [lookup_some_eq_find]
  rcases hf : specs.find? (fun q => specMatches q.2 t ps) with _ | q <;> simp [hf]

/-- A found handle comes with its entry: the first match of `find?`. -/
theorem lookup_found_mem {t : String} {ps : Params} {specs : List (Nat × EventSpec)} {h2 : Nat}
    (hf : lookupExpectedEventHandle t (some ps) specs = .found h2) :
    ∃ sp2, (h2, sp2) ∈ specs ∧
      specs.find? (fun q => specMatches q.2 t ps) = some (h2, sp2) := by
  rw [lookup_some_eq_find] at hf
  rcases hq : specs.find? (fun q => specMatches q.2 t ps) with _ | q
  · rw [hq] at hf; cases hf
  · rw [hq] at hf
    injection hf with hh
    exact ⟨q.2, by rw [← hh]; exact List.mem_of_find?_eq_some hq,
           by rw [hq, ← hh]⟩

/-- Key lookup of an absent key yields `none`. -/
theorem lookup_eq_none_of_not_mem {h : Nat} :
    ∀ {specs : List (Nat × EventSpec)}, h ∉ specs.map Prod.fst → specs.lookup h = none := by
  intro specs
  induction specs with
  | nil => intro _; rfl
  | cons q rest ih =>
    intro hnm
    obtain ⟨k, spk⟩ := q
    rw [List.map_cons, List.mem_cons] at hnm
    push_neg at hnm
    have hk : (h == k) = false := by
      simpa using hnm.1
    simp only [List.lookup, hk]
    exact ih hnm.2

/-- Key lookup in a registry with distinct keys finds the member entry. -/
theorem lookup_eq_some_of_mem_nodup {h : Nat} {sp : EventSpec} :
    ∀ {specs : List (Nat × EventSpec)},
      (specs.map Prod.fst).Nodup → (h, sp) ∈ specs → specs.lookup h = some sp := by
  intro specs
  induction specs with
  | nil => intro _ hm; cases hm
  | cons q rest ih =>
    intro hnd hm
    obtain ⟨k, spk⟩ := q
    rw [List.map_cons, List.nodup_cons] at hnd
    rcases List.mem_cons.mp hm with heq | hmem
    · injection heq with h1 h2
      subst h1; subst h2
      simp [List.lookup]
    · have hkeys : h ∈ rest.map Prod.fst :=
        List.mem_map.mpr ⟨(h, sp), hmem, rfl⟩
      have hk : (h == k) = false := by
        have : h ≠ k := fun he => hnd.1 (he ▸ hkeys)
        simpa using this
      simp only [List.lookup, hk]
      exact ih hnd.2 hmem

/-- In a registry with distinct keys, a key determines its entry. -/
theorem key_unique {specs : List (Nat × EventSpec)} {h : Nat} {a b : EventSpec}
    (hnd : (specs.map Prod.fst).Nodup) (ha : (h, a) ∈ specs) (hb : (h, b) ∈ specs) :
    a = b := by
  have h1 := lookup_eq_some_of_mem_nodup hnd ha
  have h2 := lookup_eq_some_of_mem_nodup hnd hb
  rw [h1] at h2
  exact Option.some.inj h2

/-- Deleting a key removes it from the registry's key list. -/
theorem not_mem_keys_deleteKey (h : Nat) (specs : List (Nat × EventSpec)) :
    h ∉ (deleteKey h specs).map Prod.fst := by
  intro hmem
  obtain ⟨q, hq, hq1⟩ := List.mem_map.mp hmem
  have h2 := (List.mem_filter.mp hq).2
  rw [hq1] at h2
  simp at h2

/-- Deleting an absent key is a no-op. -/
theorem deleteKey_of_not_mem {h : Nat} {specs : List (Nat × EventSpec)}
    (hnm : h ∉ specs.map Prod.fst) : deleteKey h specs = specs := by
  apply List.filter_eq_self.mpr
  intro q hq
  have hne : q.1 ≠ h := fun he => hnm (he ▸ List.mem_map_of_mem Prod.fst hq)
  simpa using hne

/-- Entries with a different key survive a deletion. -/
theorem mem_deleteKey_of_ne {h h2 : Nat} {sp2 : EventSpec} {specs : List (Nat × EventSpec)}
    (hm : (h2, sp2) ∈ specs) (hne : h2 ≠ h) : (h2, sp2) ∈ deleteKey h specs :=
  List.mem_filter.mpr ⟨hm, by simpa using hne⟩

/-- `handleServerEvent` does not touch the consecutive-failure counter. -/
theorem handleServerEvent_errorCount (throws : Nat → Bool) (s : NotifState) (d : EventData) :
    (handleServerEvent throws s d).state.listenErrorCount = s.listenErrorCount := by
  cases hm : (tryMatchExpectedEvent (Event.mkNew d.type (d.params.getD [])) s.expectedEventSpecs).matched with
  | none => simp [handleServerEvent, hm]
  | some pr =>
    obtain ⟨h, hids⟩ := pr
    simp [handleServerEvent, hm]

/-- Batch processing does not touch the consecutive-failure counter. -/
theorem processBatch_errorCount (throws : Nat → Bool) :
    ∀ (ds : List EventData) (s : NotifState),
      (processBatch throws s ds).state.listenErrorCount = s.listenErrorCount
  | [], _ => rfl
  | d :: ds, s => by
    simp only [processBatch]
    split
    · exact handleServerEvent_errorCount throws s d
    · rw [processBatch_errorCount throws ds (handleServerEvent throws s d).state,
        handleServerEvent_errorCount]

/-! Claim theorems. -/

/-- When the first matching entry is `(h, sp)`, `tryMatchExpectedEvent`
resolves exactly that entry: it reports the handle with its handlers
and deletes the entry. -/
theorem tryMatch_of_find (e : Event) {specs : List (Nat × EventSpec)} {h : Nat} {sp : EventSpec}
    (hnd : (specs.map Prod.fst).Nodup)
    (hfirst : specs.find? (fun q => specMatches q.2 e.type e.params) = some (h, sp)) :
    tryMatchExpectedEvent e specs = ⟨some (h, sp.handlers), deleteKey h specs⟩ := by
  have hl : lookupExpectedEventHandle e.type (some e.params) specs = .found h := by
    rw [lookup_some_eq_find, hfirst]
  have hmem : (h, sp) ∈ specs := List.mem_of_find?_eq_some hfirst
  have hlk := lookup_eq_some_of_mem_nodup hnd hmem
  simp [tryMatchExpectedEvent, hl, hlk]

/-- With no matching entry, `tryMatchExpectedEvent` reports no match
and leaves the registry untouched. -/
theorem tryMatch_of_find_none (e : Event) {specs : List (Nat × EventSpec)}
    (hfirst : specs.find? (fun q => specMatches q.2 e.type e.params) = none) :
    tryMatchExpectedEvent e specs = ⟨none, specs⟩ := by
  have hl : lookupExpectedEventHandle e.type (some e.params) specs = .notFound := by
    rw [lookup_some_eq_find, hfirst]
  simp [tryMatchExpectedEvent, hl]

/-- Dispatch of a server event whose first matching entry is `(h, sp)`,
in closed form: the entry is deleted, its handlers fire with the
`expected`-marked event, then the listeners are called with it. -/
theorem handleServerEvent_of_find (throws : Nat → Bool) (s : NotifState) (d : EventData)
    {h : Nat} {sp : EventSpec}
    (hnd : (s.expectedEventSpecs.map Prod.fst).Nodup)
    (hfirst : s.expectedEventSpecs.find?
      (fun q => specMatches q.2 d.type (d.params.getD [])) = some (h, sp)) :
    handleServerEvent throws s d =
      ⟨{ s with expectedEventSpecs := deleteKey h s.expectedEventSpecs },
       sp.handlers.map (fun hid => Action.handlerCall h hid
         (.ev ⟨d.type, d.params.getD [], true, false⟩)) ++
         (callEventListeners throws ⟨d.type, d.params.getD [], true, false⟩
           s.eventListeners).1.map Action.listenerCall,
       (callEventListeners throws ⟨d.type, d.params.getD [], true, false⟩
         s.eventListeners).2⟩ := by
  have ht := tryMatch_of_find (⟨d.type, d.params.getD [], false, false⟩ : Event) hnd hfirst
  simp [handleServerEvent, Event.mkNew, ht]

/-- Dispatch of a server event with no matching entry, in closed form:
the registry is untouched and the listeners receive the unmarked event. -/
theorem handleServerEvent_of_find_none (throws : Nat → Bool) (s : NotifState) (d : EventData)
    (hfirst : s.expectedEventSpecs.find?
      (fun q => specMatches q.2 d.type (d.params.getD [])) = none) :
    handleServerEvent throws s d =
      ⟨s,
       (callEventListeners throws ⟨d.type, d.params.getD [], false, false⟩
         s.eventListeners).1.map Action.listenerCall,
       (callEventListeners throws ⟨d.type, d.params.getD [], false, false⟩
         s.eventListeners).2⟩ := by
  have ht := tryMatch_of_find_none (⟨d.type, d.params.getD [], false, false⟩ : Event) hfirst
  simp [handleServerEvent, Event.mkNew, ht]

/-- Every expected-event handler fired by a dispatch belongs to a
handle currently in the registry. -/
theorem handlerCall_mem_keys (throws : Nat → Bool) (s : NotifState) (d : EventData)
    {h2 hid : Nat} {arg : HandlerArg}
    (hmem : Action.handlerCall h2 hid arg ∈ (handleServerEvent throws s d).acts) :
    h2 ∈ s.expectedEventSpecs.map Prod.fst := by
  rcases hf : s.expectedEventSpecs.find?
      (fun q => specMatches q.2 d.type (d.params.getD [])) with _ | q
  · rw [handleServerEvent_of_find_none throws s d hf] at hmem
    simp at hmem
  · obtain ⟨h3, sp3⟩ := q
    have hl : lookupExpectedEventHandle d.type (some (d.params.getD []))
        s.expectedEventSpecs = .found h3 := by
      rw [lookup_some_eq_find, hf]
    have hkey : h3 ∈ s.expectedEventSpecs.map Prod.fst := by
      obtain ⟨sp2, hm2, _⟩ := lookup_found_mem hl
      exact List.mem_map.mpr ⟨(h3, sp2), hm2, rfl⟩
    rcases hlk : s.expectedEventSpecs.lookup h3 with _ | sp2 <;>
      · simp only [handleServerEvent, tryMatchExpectedEvent, Event.mkNew, hl, hlk,
          List.mem_append, List.mem_map] at hmem
        rcases hmem with ⟨hid2, _, heq⟩ | ⟨inv, _, heq⟩
        · injection heq with hh _ _
          exact hh ▸ hkey
        · cases heq

/-- Claim C1: if some registered expectation matches a dispatched
event, the first matching entry in registry iteration order is the one
resolved: all of its handlers are invoked with the event marked
`expected = true`, no other entry's handler fires, exactly that entry
is removed (all others survive), and dispatching the same event again
does not resolve it a second time. -/
theorem c1_first_match_resolved_once (throws : Nat → Bool) (s : NotifState) (d : EventData)
    (h : Nat) (sp : EventSpec)
    (hnd : (s.expectedEventSpecs.map Prod.fst).Nodup)
    (hfirst : s.expectedEventSpecs.find?
      (fun q => specMatches q.2 d.type (d.params.getD [])) = some (h, sp)) :
    ((handleServerEvent throws s d).state.expectedEventSpecs =
       deleteKey h s.expectedEventSpecs) ∧
    (∀ hid ∈ sp.handlers,
       Action.handlerCall h hid (.ev ⟨d.type, d.params.getD [], true, false⟩) ∈
         (handleServerEvent throws s d).acts) ∧
    (∀ h2 hid arg, Action.handlerCall h2 hid arg ∈ (handleServerEvent throws s d).acts →
       h2 = h) ∧
    (∀ h2 sp2, (h2, sp2) ∈ s.expectedEventSpecs → h2 ≠ h →
       (h2, sp2) ∈ (handleServerEvent throws s d).state.expectedEventSpecs) ∧
    (∀ hid arg, Action.handlerCall h hid arg ∉
       (handleServerEvent throws (handleServerEvent throws s d).state d).acts) := by
  have hrw := handleServerEvent_of_find throws s d hnd hfirst
  refine ⟨?_, ?_, ?_, ?_, ?_⟩
  · rw [hrw]
  · intro hid hh
    rw [hrw]
    exact List.mem_append_left _ (List.mem_map.mpr ⟨hid, hh, rfl⟩)
  · intro h2 hid arg hmem
    rw [hrw] at hmem
    rcases List.mem_append.mp hmem with hin | hin
    · obtain ⟨hid2, _, heq⟩ := List.mem_map.mp hin
      injection heq with hh _ _
      exact hh.symm
    · obtain ⟨inv, _, heq⟩ := List.mem_map.mp hin
      cases heq
  · intro h2 sp2 hm hne
    rw [hrw]
    exact mem_deleteKey_of_ne hm hne
  · intro hid arg hmem
    have hkey := handlerCall_mem_keys throws _ d hmem
    rw [hrw] at hkey
    exact not_mem_keys_deleteKey h s.expectedEventSpecs hkey

/-- Witness for C1: the event batch entry `wEventData` resolves handle
1 of `wStateTwo` (handlers 10 and 11), leaves handle 2 registered, and
a repeated dispatch fires no handler of handle 1. -/
theorem c1_first_match_resolved_once_witness :
    wStateTwo.expectedEventSpecs.find?
      (fun q => specMatches q.2 wEventData.type (wEventData.params.getD [])) =
        some (1, wSpecMatch) ∧
    (handleServerEvent wThrowsNone wStateTwo wEventData).state.expectedEventSpecs =
      [(2, wSpecOther)] ∧
    Action.handlerCall 1 10
      (.ev ⟨"port-update", [("id", JsVal.str "p1"), ("value", JsVal.num 42)], true, false⟩) ∈
      (handleServerEvent wThrowsNone wStateTwo wEventData).acts ∧
    (2, wSpecOther) ∈ (handleServerEvent wThrowsNone wStateTwo wEventData).state.expectedEventSpecs ∧
    ¬ Action.handlerCall 1 10 .cancelled ∈
      (handleServerEvent wThrowsNone
        (handleServerEvent wThrowsNone wStateTwo wEventData).state wEventData).acts := by
  have h := c1_first_match_resolved_once wThrowsNone wStateTwo wEventData 1 wSpecMatch
    (by decide) (by decide)
  refine ⟨by decide, ?_, ?_, ?_, ?_⟩
  · rw [h.1]; decide
  · exact h.2.1 10 (by decide)
  · exact h.2.2.2.1 2 wSpecOther (by decide) (by decide)
  · exact h.2.2.2.2 10 .cancelled

/-- Every invocation produced by a listener dispatch carries the
dispatched event as its event argument. -/
theorem callEventListeners_eventArg (throws : Nat → Bool) (e : Event) :
    ∀ (ls : List Listener) (inv : Invocation),
      inv ∈ (callEventListeners throws e ls).1 → inv.eventArg = e
  | [] => by intro inv hm; cases hm
  | l :: ls => by
    intro inv hm
    cases ht : throws l.cb with
    | true =>
      simp [callEventListeners, ht] at hm
      rw [hm]
    | false =>
      simp only [callEventListeners, ht, Bool.false_eq_true, if_false] at hm
      rcases List.mem_cons.mp hm with heq | hm2
      · rw [heq]
      · exact callEventListeners_eventArg throws e ls inv hm2

/-- Closed form of a listener dispatch: the listeners before the first
throwing one are invoked in order, then the first throwing one (whose
exception propagates), and nothing after it. -/
theorem callEventListeners_closed_form (throws : Nat → Bool) (e : Event) :
    ∀ ls : List Listener,
      callEventListeners throws e ls =
        ((ls.takeWhile (fun l => !throws l.cb)).map (fun l => Invocation.mk l e) ++
          ((ls.dropWhile (fun l => !throws l.cb)).take 1).map (fun l => Invocation.mk l e),
         !(ls.dropWhile (fun l => !throws l.cb)).isEmpty)
  | [] => by simp [callEventListeners]
  | l :: ls => by
    cases ht : throws l.cb with
    | true =>
      simp [callEventListeners, ht, List.takeWhile_cons, List.dropWhile_cons]
    | false =>
      simp [callEventListeners, ht, List.takeWhile_cons, List.dropWhile_cons,
        callEventListeners_closed_form throws e ls]

/-- A trace of handler invocations followed by non-handler actions is
its handler-call part followed by its remainder. -/
theorem filter_split_handler_listener (A B : List Action)
    (hA : ∀ a ∈ A, a.isHandlerCall = true)
    (hB : ∀ a ∈ B, a.isHandlerCall = false) :
    A ++ B = (A ++ B).filter Action.isHandlerCall ++
      (A ++ B).filter (fun a => !a.isHandlerCall) := by
  rw [List.filter_append, List.filter_append,
    List.filter_eq_self.mpr hA,
    List.filter_eq_nil_iff.mpr (fun a ha => by simp [hB a ha]),
    List.filter_eq_nil_iff.mpr (fun a ha => by simp [hA a ha]),
    List.filter_eq_self.mpr (fun a ha => by simp [hB a ha])]
  simp

/-- A trace of handler invocations followed by `expected`-flagged
listener deliveries satisfies the per-action disjunction. -/
theorem all_handler_or_expected (A B : List Action)
    (hA : ∀ a ∈ A, a.isHandlerCall = true)
    (hB : ∀ a ∈ B, a.listenerExpected = true) :
    (A ++ B).all (fun a => a.isHandlerCall || a.listenerExpected) = true := by
  apply List.all_eq_true.mpr
  intro a ha
  rcases List.mem_append.mp ha with h1 | h1
  · simp [hA a h1]
  · simp [hB a h1]

/-- Claim C4: dispatching one event resolves the matched expectation
strictly before any listener receives it (the action trace is all
handler invocations followed by all listener invocations), every
listener-side delivery of the matched event carries `expected = true`,
and a batch is processed in server-supplied order: the first event's
dispatches precede the remaining events' dispatches, which occur only
when the first event's processing did not throw. -/
theorem c4_resolution_before_fanout (throws : Nat → Bool) (s : NotifState) (d : EventData)
    (ds : List EventData) (h : Nat) (sp : EventSpec)
    (hnd : (s.expectedEventSpecs.map Prod.fst).Nodup)
    (hfirst : s.expectedEventSpecs.find?
      (fun q => specMatches q.2 d.type (d.params.getD [])) = some (h, sp)) :
    ((handleServerEvent throws s d).acts =
       (handleServerEvent throws s d).acts.filter Action.isHandlerCall ++
         (handleServerEvent throws s d).acts.filter (fun a => !a.isHandlerCall)) ∧
    ((handleServerEvent throws s d).acts.all
       (fun a => a.isHandlerCall || a.listenerExpected) = true) ∧
    ((processBatch throws s (d :: ds)).acts =
       (handleServerEvent throws s d).acts ++
         (if (handleServerEvent throws s d).thrown then []
          else (processBatch throws (handleServerEvent throws s d).state ds).acts)) := by
  have hrw := handleServerEvent_of_find throws s d hnd hfirst
  refine ⟨?_, ?_, ?_⟩
  · rw [hrw]
    apply filter_split_handler_listener
    · intro a ha
      obtain ⟨hid, _, heq⟩ := List.mem_map.mp ha
      rw [← heq]; rfl
    · intro a ha
      obtain ⟨inv, _, heq⟩ := List.mem_map.mp ha
      rw [← heq]; rfl
  · rw [hrw]
    apply all_handler_or_expected
    · intro a ha
      obtain ⟨hid, _, heq⟩ := List.mem_map.mp ha
      rw [← heq]; rfl
    · intro a ha
      obtain ⟨inv, hinv, heq⟩ := List.mem_map.mp ha
      have hev := callEventListeners_eventArg throws
        (⟨d.type, d.params.getD [], true, false⟩ : Event) s.eventListeners inv hinv
      rw [← heq]
      simp [Action.listenerExpected, hev]
  · cases hth : (handleServerEvent throws s d).thrown with
    | true => simp [processBatch, hth]
    | false => simp [processBatch, hth]

/-- Witness for C4 on the concrete state `wStateTwo` and the batch
`[wEventData, wEventData]`. -/
theorem c4_resolution_before_fanout_witness :
    ((handleServerEvent wThrowsNone wStateTwo wEventData).acts =
       (handleServerEvent wThrowsNone wStateTwo wEventData).acts.filter Action.isHandlerCall ++
         (handleServerEvent wThrowsNone wStateTwo wEventData).acts.filter
           (fun a => !a.isHandlerCall)) ∧
    ((handleServerEvent wThrowsNone wStateTwo wEventData).acts.all
       (fun a => a.isHandlerCall || a.listenerExpected) = true) ∧
    ((processBatch wThrowsNone wStateTwo [wEventData, wEventData]).acts =
       (handleServerEvent wThrowsNone wStateTwo wEventData).acts ++
         (if (handleServerEvent wThrowsNone wStateTwo wEventData).thrown then []
          else (processBatch wThrowsNone
            (handleServerEvent wThrowsNone wStateTwo wEventData).state [wEventData]).acts)) :=
  c4_resolution_before_fanout wThrowsNone wStateTwo wEventData [wEventData] 1 wSpecMatch
    (by decide) (by decide)

/-- Corrected claim C5 (counterexample `c5_throwing_listener_stops_dispatch`):
dispatch invokes the registered listeners in registration order, each
with a value-equal copy of the event (the callback being applied to the
clone and, as a single extra argument, the registration-time arguments
object); listeners before the first throwing one run, the first
throwing listener runs and its exception propagates, and every listener
after it is skipped — invocations are not isolated from one another. -/
theorem c5_dispatch_order_and_throw (throws : Nat → Bool) (e : Event) (ls : List Listener) :
    callEventListeners throws e ls =
      ((ls.takeWhile (fun l => !throws l.cb)).map (fun l => Invocation.mk l e) ++
        ((ls.dropWhile (fun l => !throws l.cb)).take 1).map (fun l => Invocation.mk l e),
       !(ls.dropWhile (fun l => !throws l.cb)).isEmpty) :=
  callEventListeners_closed_form throws e ls

/-- Counterexample to claim C5 as stated: with two registered listeners
of which the first throws, the dispatch invokes only the first — the
second listener is prevented from running. -/
theorem c5_throwing_listener_stops_dispatch :
    wThrowsFirst wListener1.cb = true ∧
    (callEventListeners wThrowsFirst cexEvent [wListener1, wListener2]).1 =
      [⟨wListener1, cexEvent⟩] ∧
    (callEventListeners wThrowsFirst cexEvent [wListener1, wListener2]).2 = true := by
  decide

/-- Dispatch of a fake event whose first matching entry is `(h, sp)`,
in closed form. -/
theorem fakeServerEvent_of_find (throws : Nat → Bool) (s : NotifState) (t : String) (p : Params)
    {h : Nat} {sp : EventSpec}
    (hnd : (s.expectedEventSpecs.map Prod.fst).Nodup)
    (hfirst : s.expectedEventSpecs.find? (fun q => specMatches q.2 t p) = some (h, sp)) :
    fakeServerEvent throws s t p =
      ⟨{ s with expectedEventSpecs := deleteKey h s.expectedEventSpecs },
       sp.handlers.map (fun hid => Action.handlerCall h hid (.ev ⟨t, p, true, true⟩)) ++
         (callEventListeners throws ⟨t, p, true, true⟩ s.eventListeners).1.map
           Action.listenerCall,
       (callEventListeners throws ⟨t, p, true, true⟩ s.eventListeners).2⟩ := by
  have ht := tryMatch_of_find (⟨t, p, false, false⟩ : Event) hnd hfirst
  simp [fakeServerEvent, Event.mkNew, ht]

/-- Claim C6: `fakeServerEvent` with a matching pending expectation
resolves it exactly like a real event would: the entry is removed, its
handlers receive the event with `fake = true` and `expected = true`,
every listener delivery carries those flags, the poll-loop state
(generation stamp, error counter, recorded error) is untouched — no
network interaction — and the whole dispatch follows the identical path
as a real server event, its trace differing only by the `fake` flag. -/
theorem c6_fake_event_resolves (throws : Nat → Bool) (s : NotifState) (t : String) (p : Params)
    (h : Nat) (sp : EventSpec)
    (hnd : (s.expectedEventSpecs.map Prod.fst).Nodup)
    (hfirst : s.expectedEventSpecs.find? (fun q => specMatches q.2 t p) = some (h, sp)) :
    ((fakeServerEvent throws s t p).state.expectedEventSpecs =
       deleteKey h s.expectedEventSpecs) ∧
    (∀ hid ∈ sp.handlers,
       Action.handlerCall h hid (.ev ⟨t, p, true, true⟩) ∈ (fakeServerEvent throws s t p).acts) ∧
    (∀ inv : Invocation, Action.listenerCall inv ∈ (fakeServerEvent throws s t p).acts →
       inv.eventArg = ⟨t, p, true, true⟩) ∧
    ((fakeServerEvent throws s t p).state.listeningTime = s.listeningTime ∧
     (fakeServerEvent throws s t p).state.listenErrorCount = s.listenErrorCount ∧
     (fakeServerEvent throws s t p).state.syncListenError = s.syncListenError) ∧
    ((fakeServerEvent throws s t p).state = (handleServerEvent throws s ⟨t, some p⟩).state ∧
     (fakeServerEvent throws s t p).acts =
       ((handleServerEvent throws s ⟨t, some p⟩).acts.map Action.setFake)) := by
  have hrw := fakeServerEvent_of_find throws s t p hnd hfirst
  have hrw2 := handleServerEvent_of_find throws s (⟨t, some p⟩ : EventData) hnd hfirst
  refine ⟨?_, ?_, ?_, ?_, ?_, ?_⟩
  · rw [hrw]
  · intro hid hh
    rw [hrw]
    exact List.mem_append_left _ (List.mem_map.mpr ⟨hid, hh, rfl⟩)
  · intro inv hmem
    rw [hrw] at hmem
    rcases List.mem_append.mp hmem with hin | hin
    · obtain ⟨hid, _, heq⟩ := List.mem_map.mp hin
      cases heq
    · obtain ⟨inv2, hinv2, heq⟩ := List.mem_map.mp hin
      injection heq with he
      rw [← he]
      exact callEventListeners_eventArg throws _ s.eventListeners inv2 hinv2
  · rw [hrw]
    exact ⟨rfl, rfl, rfl⟩
  · rw [hrw, hrw2]
  · rw [hrw, hrw2]
    dsimp only [Option.getD]
    rw [callEventListeners_closed_form throws (⟨t, p, true, true⟩ : Event),
      callEventListeners_closed_form throws (⟨t, p, true, false⟩ : Event)]
    simp [List.map_append, List.map_map, Function.comp_def, Action.setFake, HandlerArg.setFake,
      Event.setFake]

/-- Witness for C6: a concrete fake `port-update` event resolving
handle 1 of `wStateTwo` without touching the poll-loop state. -/
theorem c6_fake_event_resolves_witness :
    (fakeServerEvent wThrowsNone wStateTwo "port-update"
       [("id", JsVal.str "p1")]).state.expectedEventSpecs = [(2, wSpecOther)] ∧
    Action.handlerCall 1 10 (.ev ⟨"port-update", [("id", JsVal.str "p1")], true, true⟩) ∈
      (fakeServerEvent wThrowsNone wStateTwo "port-update" [("id", JsVal.str "p1")]).acts ∧
    (fakeServerEvent wThrowsNone wStateTwo "port-update"
       [("id", JsVal.str "p1")]).state.listeningTime = some 100 ∧
    (fakeServerEvent wThrowsNone wStateTwo "port-update" [("id", JsVal.str "p1")]).acts =
      ((handleServerEvent wThrowsNone wStateTwo
        ⟨"port-update", some [("id", JsVal.str "p1")]⟩).acts.map Action.setFake) := by
  have h := c6_fake_event_resolves wThrowsNone wStateTwo "port-update"
    [("id", JsVal.str "p1")] 1 wSpecMatch (by decide) (by decide)
  refine ⟨?_, ?_, ?_, ?_⟩
  · rw [h.1]; decide
  · exact h.2.1 10 (by decide)
  · rw [h.2.2.2.1.1]; rfl
  · exact h.2.2.2.2.2

/-- Claim C3: a poll response (success or failure) whose generation
stamp recorded at request time no longer equals the current
`listeningTime` is discarded entirely: no state mutation, no dispatch
of any kind, and no next poll cycle scheduled. -/
theorem c3_stale_generation_discarded (throws : Nat → Bool) (rqTime : Option Nat)
    (retryInterval : Nat) (s : NotifState) (result : List EventData) (errId : Nat)
    (hstale : s.listeningTime ≠ rqTime) :
    waitThen throws rqTime s result = ⟨s, [], .notScheduled⟩ ∧
    waitCatch rqTime retryInterval s errId = ⟨s, [], .notScheduled⟩ := by
  constructor
  · simp [waitThen, hstale]
  · simp [waitCatch, hstale]

/-- Witness for C3 on a concrete stale response. -/
theorem c3_stale_generation_discarded_witness :
    wStale.listeningTime = some 5 ∧
    waitThen wThrowsNone none wStale [wEventData] = ⟨wStale, [], .notScheduled⟩ ∧
    waitCatch none 5 wStale 3 = ⟨wStale, [], .notScheduled⟩ :=
  ⟨rfl,
   (c3_stale_generation_discarded wThrowsNone none 5 wStale [wEventData] 3 (by decide)).1,
   (c3_stale_generation_discarded wThrowsNone none 5 wStale [wEventData] 3 (by decide)).2⟩

/-- Claim C9: with error suppression off and a current generation, the
n-th consecutive poll failure records the error, sets the counter to n,
schedules the retry after 1 second when n is within the fast-reconnect
count (2) and after the steady-state retry interval otherwise, and
reports that same delay to every sync-listen callback; any successful
poll of the current generation resets the counter to zero. -/
theorem c9_reconnect_backoff (throws : Nat → Bool) (rqTime : Option Nat)
    (retryInterval : Nat) (s : NotifState) (errId : Nat) (result : List EventData)
    (hgen : s.listeningTime = rqTime) (hnoignore : s.ignoreListenErrors = false) :
    waitCatch rqTime retryInterval s errId =
      ⟨{ s with syncListenError := some errId, listenErrorCount := s.listenErrorCount + 1 },
       s.syncListenCallbacks.map (fun c => Action.syncCall c (some (errId,
         if s.listenErrorCount + 1 ≤ FAST_RECONNECT_LISTEN_ERRORS then 1 else retryInterval))),
       .afterSeconds
         (if s.listenErrorCount + 1 ≤ FAST_RECONNECT_LISTEN_ERRORS then 1 else retryInterval)⟩ ∧
    (waitThen throws rqTime s result).state.listenErrorCount = 0 := by
  constructor
  · simp [waitCatch, hgen, hnoignore]
  · subst hgen
    have h1 := processBatch_errorCount throws result
      { s with syncListenError := none, listenErrorCount := 0 }
    simpa [waitThen] using h1

/-- Witness for C9: concrete failures number 1, 2 and 3, and a success
resetting the counter. -/
theorem c9_reconnect_backoff_witness :
    waitCatch (some 100) 5 wStateTwo 9 =
      ⟨{ wStateTwo with syncListenError := some 9, listenErrorCount := 1 },
       [Action.syncCall 40 (some (9, 1))], .afterSeconds 1⟩ ∧
    (waitCatch (some 100) 5
        { wStateTwo with listenErrorCount := 2 } 9).sched = .afterSeconds 5 ∧
    (waitThen wThrowsNone (some 100)
        { wStateTwo with listenErrorCount := 2 } []).state.listenErrorCount = 0 := by
  refine ⟨?_, ?_, ?_⟩
  · have h := (c9_reconnect_backoff wThrowsNone (some 100) 5 wStateTwo 9 [] rfl rfl).1
    rw [h]; decide
  · have h := (c9_reconnect_backoff wThrowsNone (some 100) 5
      { wStateTwo with listenErrorCount := 2 } 9 [] rfl rfl).1
    rw [h]; decide
  · exact (c9_reconnect_backoff wThrowsNone (some 100) 5
      { wStateTwo with listenErrorCount := 2 } 9 [] rfl rfl).2

/-- Absent handle: `unexpectEvent` is a no-op producing no dispatches. -/
theorem unexpect_absent {s : NotifState} {h : Nat}
    (hnm : h ∉ s.expectedEventSpecs.map Prod.fst) :
    unexpectEvent s h = (s, []) := by
  simp only [unexpectEvent, lookup_eq_none_of_not_mem hnm, deleteKey_of_not_mem hnm]

/-- Claim C8: `unexpectEvent` on a pending handle invokes each of that
entry's handlers exactly once with the cancellation failure (a kind
distinct from timeout) and removes exactly that entry; on an absent
handle it is a no-op, hence calling it twice equals calling it once. -/
theorem c8_unexpect_cancel_idempotent (s : NotifState) (h : Nat) (sp : EventSpec)
    (hnd : (s.expectedEventSpecs.map Prod.fst).Nodup) :
    ((h, sp) ∈ s.expectedEventSpecs →
       unexpectEvent s h =
         ({ s with expectedEventSpecs := deleteKey h s.expectedEventSpecs },
          sp.handlers.map (fun hid => Action.handlerCall h hid .cancelled))) ∧
    (h ∉ s.expectedEventSpecs.map Prod.fst → unexpectEvent s h = (s, [])) ∧
    (unexpectEvent (unexpectEvent s h).1 h = ((unexpectEvent s h).1, [])) ∧
    HandlerArg.cancelled ≠ HandlerArg.timedOut := by
  refine ⟨?_, fun hnm => unexpect_absent hnm, ?_, by decide⟩
  · intro hm
    simp only [unexpectEvent, lookup_eq_some_of_mem_nodup hnd hm]
  · apply unexpect_absent
    show h ∉ (deleteKey h s.expectedEventSpecs).map Prod.fst
    exact not_mem_keys_deleteKey h s.expectedEventSpecs

/-- The timeout dispatches of entries none of which is keyed `h` contain
no dispatch for `h`. -/
theorem timeoutActs_filter_of_not_mem (h : Nat) :
    ∀ L : List (Nat × EventSpec), h ∉ L.map Prod.fst →
      ((L.flatMap (fun q => q.2.handlers.map (fun hid => Action.handlerCall q.1 hid .timedOut))).filter
        (Action.onHandle h)) = []
  | [] => by intro _; rfl
  | (k, spk) :: rest => by
    intro hnm
    rw [List.map_cons, List.mem_cons] at hnm
    push_neg at hnm
    have hk : (k == h) = false := by
      simpa using (Ne.symm hnm.1)
    rw [List.flatMap_cons, List.filter_append, List.filter_map]
    have hhead : spk.handlers.filter ((Action.onHandle h) ∘
        (fun hid => Action.handlerCall k hid .timedOut)) = [] := by
      apply List.filter_eq_nil_iff.mpr
      intro hid _
      simp [Action.onHandle, hk]
    rw [hhead]
    simpa using timeoutActs_filter_of_not_mem h rest hnm.2

/-- With distinct keys, the timeout dispatches restricted to the key of
a member entry are exactly that entry's handler invocations, in order. -/
theorem timeoutActs_filter_of_mem (h : Nat) (sp : EventSpec) :
    ∀ L : List (Nat × EventSpec), (L.map Prod.fst).Nodup → (h, sp) ∈ L →
      ((L.flatMap (fun q => q.2.handlers.map (fun hid => Action.handlerCall q.1 hid .timedOut))).filter
        (Action.onHandle h)) =
        sp.handlers.map (fun hid => Action.handlerCall h hid .timedOut)
  | [] => by intro _ hm; cases hm
  | (k, spk) :: rest => by
    intro hnd hm
    rw [List.map_cons, List.nodup_cons] at hnd
    rw [List.flatMap_cons, List.filter_append, List.filter_map]
    rcases List.mem_cons.mp hm with heq | hmem
    · injection heq with h1 h2
      subst h1; subst h2
      have hhead : sp.handlers.filter ((Action.onHandle h) ∘
          (fun hid => Action.handlerCall h hid .timedOut)) = sp.handlers := by
        apply List.filter_eq_self.mpr
        intro hid _
        simp [Action.onHandle]
      rw [hhead, timeoutActs_filter_of_not_mem h rest hnd.1, List.append_nil]
    · have hkeys : h ∈ rest.map Prod.fst := List.mem_map.mpr ⟨(h, sp), hmem, rfl⟩
      have hk : (k == h) = false := by
        have : k ≠ h := fun he => hnd.1 (he ▸ hkeys)
        simpa using this
      have hhead : spk.handlers.filter ((Action.onHandle h) ∘
          (fun hid => Action.handlerCall k hid .timedOut)) = [] := by
        apply List.filter_eq_nil_iff.mpr
        intro hid _
        simp [Action.onHandle, hk]
      rw [hhead]
      simpa using timeoutActs_filter_of_mem h sp rest hnd.2 hmem

/-- Keys of a filtered registry keep their distinctness. -/
theorem nodup_keys_filter (p : Nat × EventSpec → Bool) {specs : List (Nat × EventSpec)}
    (hnd : (specs.map Prod.fst).Nodup) : ((specs.filter p).map Prod.fst).Nodup :=
  ((List.filter_sublist specs).map Prod.fst).nodup hnd

/-- Claim C2: the periodic sweep resolves every registered entry whose
age strictly exceeds its timeout — its handlers are each invoked
exactly once with the timeout failure (a kind distinct from
cancellation) and the entry is removed — leaves every non-overdue entry
registered with no handler invocation, and dispatches nothing for a
handle that is no longer (or never was) in the registry, so an entry
already resolved by a live match or by `unexpectEvent` is never also
expired. -/
theorem c2_sweep_expires_exactly_overdue (now : Nat) (s : NotifState)
    (hnd : (s.expectedEventSpecs.map Prod.fst).Nodup) :
    (∀ h sp, (h, sp) ∈ s.expectedEventSpecs → isExpired now sp = true →
       h ∉ ((cleanupExpectedEvents now s).1.expectedEventSpecs.map Prod.fst) ∧
       (cleanupExpectedEvents now s).2.filter (Action.onHandle h) =
         sp.handlers.map (fun hid => Action.handlerCall h hid .timedOut)) ∧
    (∀ h sp, (h, sp) ∈ s.expectedEventSpecs → isExpired now sp = false →
       (h, sp) ∈ (cleanupExpectedEvents now s).1.expectedEventSpecs ∧
       (cleanupExpectedEvents now s).2.filter (Action.onHandle h) = []) ∧
    (∀ h, h ∉ s.expectedEventSpecs.map Prod.fst →
       (cleanupExpectedEvents now s).2.filter (Action.onHandle h) = []) ∧
    HandlerArg.timedOut ≠ HandlerArg.cancelled := by
  refine ⟨?_, ?_, ?_, by decide⟩
  · intro h sp hm hexp
    constructor
    · intro hmem
      obtain ⟨q, hq, hq1⟩ := List.mem_map.mp hmem
      have hqm := List.mem_filter.mp hq
      obtain ⟨k, spk⟩ := q
      subst hq1
      have : spk = sp := key_unique hnd hqm.1 hm
      subst this
      rw [hexp] at hqm
      simp at hqm
    · exact timeoutActs_filter_of_mem h sp _
        (nodup_keys_filter (fun q => isExpired now q.2) hnd)
        (List.mem_filter.mpr ⟨hm, hexp⟩)
  · intro h sp hm hlive
    constructor
    · exact List.mem_filter.mpr ⟨hm, by simp [hlive]⟩
    · apply timeoutActs_filter_of_not_mem
      intro hmem
      obtain ⟨q, hq, hq1⟩ := List.mem_map.mp hmem
      have hqm := List.mem_filter.mp hq
      obtain ⟨k, spk⟩ := q
      subst hq1
      have : spk = sp := key_unique hnd hqm.1 hm
      subst this
      rw [hlive] at hqm
      simp at hqm
  · intro h hnm
    apply timeoutActs_filter_of_not_mem
    intro hmem
    obtain ⟨q, hq, hq1⟩ := List.mem_map.mp hmem
    exact hnm (hq1 ▸ List.mem_map_of_mem Prod.fst (List.mem_filter.mp hq).1)

/-- Witness for C2 on a concrete registry at time 200: handle 1 (age
200, timeout 100) expires, handle 2 (age 50) survives, and the absent
handle 3 gets nothing. -/
theorem c2_sweep_expires_exactly_overdue_witness :
    (1, ⟨some "x", none, 0, 100, [20]⟩) ∈ wExpiredState.expectedEventSpecs ∧
    ((cleanupExpectedEvents 200 wExpiredState).1.expectedEventSpecs =
       [(2, ⟨some "y", none, 150, 100, [21]⟩)] ∧
     (cleanupExpectedEvents 200 wExpiredState).2 = [Action.handlerCall 1 20 .timedOut]) ∧
    (2, (⟨some "y", none, 150, 100, [21]⟩ : EventSpec)) ∈
      (cleanupExpectedEvents 200 wExpiredState).1.expectedEventSpecs ∧
    (cleanupExpectedEvents 200 wExpiredState).2.filter (Action.onHandle 3) = [] := by
  have h := c2_sweep_expires_exactly_overdue 200 wExpiredState (by decide)
  refine ⟨by decide, ⟨by decide, by decide⟩, ?_, ?_⟩
  · exact (h.2.1 2 ⟨some "y", none, 150, 100, [21]⟩ (by decide) (by decide)).1
  · exact h.2.2.1 3 (by decide)

/-- Witness for C8 on a concrete pending handle and its double cancel. -/
theorem c8_unexpect_cancel_idempotent_witness :
    (1, wSpecMatch) ∈ wStateTwo.expectedEventSpecs ∧
    unexpectEvent wStateTwo 1 =
      ({ wStateTwo with expectedEventSpecs := [(2, wSpecOther)] },
       [Action.handlerCall 1 10 .cancelled, Action.handlerCall 1 11 .cancelled]) ∧
    unexpectEvent (unexpectEvent wStateTwo 1).1 1 = ((unexpectEvent wStateTwo 1).1, []) := by
  have h := c8_unexpect_cancel_idempotent wStateTwo 1 wSpecMatch (by decide)
  refine ⟨by decide, ?_, h.2.2.1⟩
  have h1 := h.1 (by decide)
  rw [h1]
  decide

/-- Corrected claim C7 (counterexample `c7_null_params_throws`): a
`waitExpectedEvent` call whose lookup finds no entry returns a rejected
promise and creates no registration; with non-null params the call
never throws synchronously; when the lookup finds a handle the call
attaches the continuation to that entry and returns a promise joined
onto it, and with non-null params the found handle is exactly the first
registry entry matching under the subset rule; but when params is null
and the lookup inspects a type-compatible entry with a non-empty params
filter, a `TypeError` escapes the call synchronously. -/
theorem c7_wait_join_amended (s : NotifState) (t : String) (p : Option Params) (hid : Nat) :
    (lookupExpectedEventHandle t p s.expectedEventSpecs = .notFound →
       waitExpectedEvent s t p hid = (.rejected, s)) ∧
    (∀ ps, p = some ps → (waitExpectedEvent s t p hid).1 ≠ .threw) ∧
    (∀ h, lookupExpectedEventHandle t p s.expectedEventSpecs = .found h →
       waitExpectedEvent s t p hid =
         (.pending h, { s with expectedEventSpecs := pushHandler h hid s.expectedEventSpecs })) ∧
    (∀ ps h, p = some ps →
       lookupExpectedEventHandle t (some ps) s.expectedEventSpecs = .found h →
       ∃ sp, s.expectedEventSpecs.find? (fun q => specMatches q.2 t ps) = some (h, sp)) ∧
    (lookupExpectedEventHandle t p s.expectedEventSpecs = .threw →
       waitExpectedEvent s t p hid = (.threw, s)) := by
  refine ⟨?_, ?_, ?_, ?_, ?_⟩
  · intro hl
    simp [waitExpectedEvent, hl]
  · intro ps hp
    subst hp
    rcases hl : lookupExpectedEventHandle t (some ps) s.expectedEventSpecs with h | _ | _
    · simp [waitExpectedEvent, hl]
    · simp [waitExpectedEvent, hl]
    · exact absurd hl (lookup_some_ne_threw t ps s.expectedEventSpecs)
  · intro h hl
    simp [waitExpectedEvent, hl]
  · intro ps h hp hl
    obtain ⟨sp, _, hfind⟩ := lookup_found_mem hl
    exact ⟨sp, hfind⟩
  · intro hl
    simp [waitExpectedEvent, hl]

/-- Counterexample to claim C7 as stated: with a registered expectation
`{type: "x", params: {a: 1}}`, the call `waitExpectedEvent("x")` (null
params) matches no entry under the subset rule, yet it does not return
a rejected promise — evaluating `params[key]` on the null candidate
makes a `TypeError` escape the call synchronously, with no state
change. -/
theorem c7_null_params_throws :
    specMatches c7Spec "x" [] = false ∧
    waitExpectedEvent c7State "x" none 7 = (.threw, c7State) := by
  decide

/-- Witness for C7 (amended): a concrete rejected lookup and a concrete
successful join pushing handler 7 onto handle 1. -/
theorem c7_wait_join_amended_witness :
    waitExpectedEvent c7State "nope" (some []) 7 = (.rejected, c7State) ∧
    waitExpectedEvent wStateTwo "port-update" (some [("id", JsVal.str "p1")]) 7 =
      (.pending 1,
       { wStateTwo with expectedEventSpecs :=
           [(1, ⟨some "port-update", some [("id", JsVal.str "p1")], 0, 5000, [10, 11, 7]⟩),
            (2, wSpecOther)] }) := by
  have h1 := (c7_wait_join_amended c7State "nope" (some []) 7).1 (by decide)
  have h2 := (c7_wait_join_amended wStateTwo "port-update"
    (some [("id", JsVal.str "p1")]) 7).2.2.1 1 (by decide)
  refine ⟨h1, ?_⟩
  rw [h2]
  decide

/-- Every listener delivery of a dispatched server event carries the
params that the `Event` was constructed with (`eventData.params || {}`). -/
theorem listener_params_of_dispatch (throws : Nat → Bool) (s : NotifState) (d : EventData)
    {inv : Invocation}
    (hmem : Action.listenerCall inv ∈ (handleServerEvent throws s d).acts) :
    inv.eventArg.params = d.params.getD [] := by
  rcases hl : lookupExpectedEventHandle d.type (some (d.params.getD []))
      s.expectedEventSpecs with h3 | _ | _
  · rcases hlk : s.expectedEventSpecs.lookup h3 with _ | sp2
    · simp only [handleServerEvent, tryMatchExpectedEvent, Event.mkNew, hl, hlk,
        List.mem_append, List.mem_map, List.map_nil, List.not_mem_nil, false_and,
        exists_false, false_or] at hmem
      obtain ⟨inv2, hinv2, heq⟩ := hmem
      injection heq with he
      rw [← he, callEventListeners_eventArg throws _ s.eventListeners inv2 hinv2]
    · simp only [handleServerEvent, tryMatchExpectedEvent, Event.mkNew, hl, hlk,
        List.mem_append, List.mem_map] at hmem
      rcases hmem with ⟨hid2, _, heq⟩ | ⟨inv2, hinv2, heq⟩
      · cases heq
      · injection heq with he
        rw [← he, callEventListeners_eventArg throws _ s.eventListeners inv2 hinv2]
  · simp only [handleServerEvent, tryMatchExpectedEvent, Event.mkNew, hl,
      List.mem_map] at hmem
    obtain ⟨inv2, hinv2, heq⟩ := hmem
    injection heq with he
    rw [← he, callEventListeners_eventArg throws _ s.eventListeners inv2 hinv2]
  · exact absurd hl (lookup_some_ne_threw d.type (d.params.getD []) s.expectedEventSpecs)

/-- Claim C10: a server event record with an absent (null) params field
is dispatched exactly as one with an empty params object — the
constructed event's params map is empty, never missing: every listener
delivery of it carries the empty params map, matching such a candidate
never dereferences a missing map (the lookup cannot throw on it), and
an expectation registered with null or empty params still matches it. -/
theorem c10_absent_params_empty_object (throws : Nat → Bool) (s : NotifState) (t : String) :
    handleServerEvent throws s ⟨t, none⟩ = handleServerEvent throws s ⟨t, some []⟩ ∧
    (∀ inv : Invocation,
       Action.listenerCall inv ∈ (handleServerEvent throws s ⟨t, none⟩).acts →
       inv.eventArg.params = []) ∧
    lookupExpectedEventHandle t (some []) s.expectedEventSpecs ≠ .threw ∧
    (∀ sp : EventSpec, typeAccepts sp t = true → (sp.params = none ∨ sp.params = some []) →
       specMatches sp t [] = true) := by
  refine ⟨rfl, ?_, lookup_some_ne_threw t [] s.expectedEventSpecs, ?_⟩
  · intro inv hmem
    exact listener_params_of_dispatch throws s ⟨t, none⟩ hmem
  · intro sp hta hp
    rcases hp with hp | hp <;> simp [specMatches, hta, hp, paramsMismatch]

/-- Witness for C10: a concrete event with absent params dispatches as
with empty params, and the params-less entry of `wExpiredState` matches
it. -/
theorem c10_absent_params_empty_object_witness :
    handleServerEvent wThrowsNone wExpiredState ⟨"x", none⟩ =
      handleServerEvent wThrowsNone wExpiredState ⟨"x", some []⟩ ∧
    specMatches ⟨some "x", none, 0, 100, [20]⟩ "x" [] = true := by
  have h := c10_absent_params_empty_object wThrowsNone wExpiredState "x"
  exact ⟨h.1, h.2.2.2 ⟨some "x", none, 0, 100, [20]⟩ (by decide) (Or.inl rfl)⟩

end Notif
